import Mathlib

/-!
Verification of the media-file-server sources of this repository.

The development shallowly embeds, over `Nat` and `List Nat`, the parts of
the code the claims are about:

* the byte-range streaming loop of `stream_file_range`
  (src/media-file-server/fastapi_file_server.py, lines 125-184);
* the range validation / clamping step of `stream_file`
  (src/media-file-server/fastapi_file_server.py, lines 508-514) and
  `RangeRequestHandler.do_GET` (src/usenet_file_server.py, lines 75-81);
* the 7z stability tracker and split-part probe of
  `extract_7z_archives.monitor_loop`
  (src/media-file-server/usenet_file_server.py, lines 1057-1177);
* the archive-reference split of `handle_archive_extraction`
  (src/media-file-server/usenet_file_server.py, lines 379-391);
* the filename fallback search of `stream_file` / `find_file_by_name`
  (src/media-file-server/fastapi_file_server.py, lines 114-122 and 470-480).

Bytes are modelled as `Nat`, byte buffers as `List Nat`, filenames as
`List Char`, timestamps and sizes as `Nat`.
-/

/-! ## The streaming loop of `stream_file_range` (fastapi_file_server.py 125-184)

A byte source is a function `readAt : Nat → Nat → List Nat`: `readAt off n`
is what `f.read(n)` returns when the file cursor stands at `off` (the Python
loop reads sequentially after one `seek(start)`, so the cursor is always
`start + bytes_sent`).  `f.read` returns at most `n` bytes.
-/

/-- Result of one run of the streaming loop: the chunks yielded, in order,
plus how many reads came back empty (each empty read is one pass through the
`if not chunk` branch of the Python loop). -/
structure StreamResult where
  chunks : List (List Nat)
  emptyReads : Nat
  deriving Repr, DecidableEq

/-- The `while remaining > 0` loop of `stream_file_range`
(fastapi_file_server.py lines 152-184), with the transport writes dropped:
read `min chunk_size remaining` bytes at the cursor; an empty read either
breaks (end-seek with `eof_retries == 0`, or retry budget exhausted) or
bumps `eof_retries` and retries; a non-empty read is yielded, advances the
cursor and decrements `remaining`, resetting `eof_retries`. -/
def streamLoop (readAt : Nat → Nat → List Nat) (chunkSize maxEofRetries : Nat)
    (isEndSeek : Bool) (cursor remaining eofRetries : Nat) : StreamResult :=
  if _h0 : remaining = 0 then ⟨[], 0⟩
  else if hc : (readAt cursor (min chunkSize remaining)).length = 0 then
    if isEndSeek = true ∧ eofRetries = 0 then ⟨[], 1⟩
    else if hr : maxEofRetries ≤ eofRetries then ⟨[], 1⟩
    else
      let r := streamLoop readAt chunkSize maxEofRetries isEndSeek
        cursor remaining (eofRetries + 1)
      ⟨r.chunks, r.emptyReads + 1⟩
  else
    let r := streamLoop readAt chunkSize maxEofRetries isEndSeek
      (cursor + (readAt cursor (min chunkSize remaining)).length)
      (remaining - (readAt cursor (min chunkSize remaining)).length) 0
    ⟨readAt cursor (min chunkSize remaining) :: r.chunks, r.emptyReads⟩
  termination_by (remaining, maxEofRetries + 1 - eofRetries)
  decreasing_by
  · apply Prod.Lex.right
    omega
  · apply Prod.Lex.left
    omega

/-- The end-seek classification of `stream_file_range` (line 139):
`is_end_seek = is_rar2fs and (start / file_size > 0.9) if file_size > 0 else
False`.  The real-division comparison `start / file_size > 0.9` is modelled
exactly over rationals as `9 * file_size < 10 * start`. -/
def isEndSeekOf (isRar2fs : Bool) (start fileSize : Nat) : Bool :=
  if 0 < fileSize then isRar2fs && decide (9 * fileSize < 10 * start) else false

/-- The retry budget of `stream_file_range` (line 145):
`3 if is_end_seek else (30 if is_rar2fs else 10)`. -/
def maxEofRetriesOf (isEndSeek isRar2fs : Bool) : Nat :=
  if isEndSeek then 3 else if isRar2fs then 30 else 10

/-- `stream_file_range` (fastapi_file_server.py lines 125-184): computes
`content_length = end - start + 1`, the end-seek flag and the retry budget,
then runs the streaming loop from the start offset with `eof_retries = 0`.
`e` is the inclusive range end (`end` in the source). -/
def stream_file_range (readAt : Nat → Nat → List Nat) (start e chunkSize fileSize : Nat)
    (isRar2fs : Bool) : StreamResult :=
  let contentLength := e - start + 1
  let endSeek := isEndSeekOf isRar2fs start fileSize
  streamLoop readAt chunkSize (maxEofRetriesOf endSeek isRar2fs) endSeek
    start contentLength 0

/-- A fully materialised file of content `data` truncated at `p` available
bytes: `read(n)` at offset `off` returns the next `min n (p - off)` bytes,
hence the empty list at every offset at or past `p`.  With `p = data.length`
this is a fully-available source. -/
def truncatedSource (data : List Nat) (p : Nat) : Nat → Nat → List Nat :=
  fun off n => (data.drop off).take (min n (p - off))

/-! ## C1: fully-available sources stream the exact requested range -/

/-- Loop invariant for `streamLoop` over a source consistent with `data`
that never returns an empty read at an in-range offset: the concatenation
of the yielded chunks is exactly the next `remaining` bytes of `data` at
the cursor, and every chunk is non-empty. -/
theorem streamLoop_available_join (data : List Nat) (readAt : Nat → Nat → List Nat)
    (chunkSize maxEofRetries : Nat) (isEndSeek : Bool)
    (hread : ∀ off n, ∃ k, k ≤ n ∧ readAt off n = (data.drop off).take k ∧
      (off < data.length → 1 ≤ n → 1 ≤ k))
    (hcs : 1 ≤ chunkSize) :
    ∀ remaining cursor eofRetries, cursor + remaining ≤ data.length →
      (streamLoop readAt chunkSize maxEofRetries isEndSeek cursor remaining
          eofRetries).chunks.flatten = (data.drop cursor).take remaining ∧
      ∀ c ∈ (streamLoop readAt chunkSize maxEofRetries isEndSeek cursor remaining
          eofRetries).chunks, c ≠ [] := by
  intro remaining
  induction remaining using Nat.strong_induction_on with
  | _ remaining ih =>
    intro cursor eofRetries hlen
    by_cases h0 : remaining = 0
    · subst h0
      rw [streamLoop]
      simp
    · obtain ⟨k, hkn, heq, hpos⟩ := hread cursor (min chunkSize remaining)
      have hcur : cursor < data.length := by omega
      have hk1 : 1 ≤ k := hpos hcur (by omega)
      have hklen : (readAt cursor (min chunkSize remaining)).length = k := by
        rw [heq, List.length_take, List.length_drop]
        omega
      have ih' := ih (remaining - k) (by omega) (cursor + k) 0 (by omega)
      rw [streamLoop, dif_neg h0, dif_neg (by omega : ¬(readAt cursor
        (min chunkSize remaining)).length = 0)]
      simp only [hklen]
      constructor
      · simp only [List.flatten_cons, heq, ih'.1]
        conv_rhs => rw [show remaining = k + (remaining - k) from by omega, List.take_add]
        congr 1
        rw [List.drop_drop]
      · intro c hcmem
        simp only [List.mem_cons] at hcmem
        rcases hcmem with hceq | hcmem
        · subst hceq
          exact List.length_pos.mp (by rw [hklen]; omega)
        · exact ih'.2 c hcmem

/-- C1 — Over a fully-available byte source (every `read_at` call at an
in-range offset returns at least one byte, never more than asked, and reads
are consistent with the file content `data`), for every range
`start ≤ e < data.length` and every positive chunk size,
`stream_file_range` emits chunks whose concatenation is byte-for-byte the
`e - start + 1` requested bytes, of exactly that length, and every chunk is
non-empty — so the chunks sit end to end at strictly increasing offsets
with no gaps, overlaps or duplicated bytes. -/
theorem C1_stream_full_range (data : List Nat) (readAt : Nat → Nat → List Nat)
    (start e chunkSize fileSize : Nat) (isRar2fs : Bool)
    (hread : ∀ off n, ∃ k, k ≤ n ∧ readAt off n = (data.drop off).take k ∧
      (off < data.length → 1 ≤ n → 1 ≤ k))
    (hse : start ≤ e) (helen : e < data.length) (hcs : 1 ≤ chunkSize) :
    (stream_file_range readAt start e chunkSize fileSize isRar2fs).chunks.flatten
      = (data.drop start).take (e - start + 1) ∧
    (stream_file_range readAt start e chunkSize fileSize isRar2fs).chunks.flatten.length
      = e - start + 1 ∧
    ∀ c ∈ (stream_file_range readAt start e chunkSize fileSize isRar2fs).chunks,
      c ≠ [] := by
  have h := streamLoop_available_join data readAt chunkSize
    (maxEofRetriesOf (isEndSeekOf isRar2fs start fileSize) isRar2fs)
    (isEndSeekOf isRar2fs start fileSize) hread hcs
    (e - start + 1) start 0 (by omega)
  simp only [stream_file_range]
  refine ⟨h.1, ?_, h.2⟩
  rw [h.1, List.length_take, List.length_drop]
  omega

/-- Witness for C1: a five-byte fully-available file, range `[1,3]`, chunk
size 2 — the stream is exactly bytes `6,7,8`. -/
theorem C1_stream_full_range_witness :
    (1:Nat) ≤ 2 ∧ 1 ≤ 3 ∧ 3 < 5 ∧
    ((stream_file_range (truncatedSource [5, 6, 7, 8, 9] 5) 1 3 2 5 false).chunks.flatten
        = ([5, 6, 7, 8, 9].drop 1).take (3 - 1 + 1) ∧
      (stream_file_range (truncatedSource [5, 6, 7, 8, 9] 5) 1 3 2 5 false).chunks.flatten.length
        = 3 - 1 + 1 ∧
      ∀ c ∈ (stream_file_range (truncatedSource [5, 6, 7, 8, 9] 5) 1 3 2 5 false).chunks,
        c ≠ []) :=
  ⟨by omega, by omega, by omega,
    C1_stream_full_range [5, 6, 7, 8, 9] (truncatedSource [5, 6, 7, 8, 9] 5) 1 3 2 5 false
      (fun off n => ⟨min n (5 - off), by omega, rfl, fun h1 h2 => by
        simp only [List.length_cons, List.length_nil] at h1
        omega⟩)
      (by omega) (by simp) (by omega)⟩

/-! ## C2: persistent empty reads terminate with a strict prefix -/

/-- When a read at the cursor keeps coming back empty, the streaming loop
yields nothing more, and performs at most `maxEofRetries + 1 - eofRetries`
further empty reads before giving up. -/
theorem streamLoop_stuck (readAt : Nat → Nat → List Nat)
    (chunkSize maxEofRetries : Nat) (isEndSeek : Bool) (cursor remaining : Nat)
    (hrem : remaining ≠ 0)
    (hempty : readAt cursor (min chunkSize remaining) = []) :
    ∀ d eofRetries, maxEofRetries - eofRetries = d → eofRetries ≤ maxEofRetries →
      (streamLoop readAt chunkSize maxEofRetries isEndSeek cursor remaining
          eofRetries).chunks = [] ∧
      (streamLoop readAt chunkSize maxEofRetries isEndSeek cursor remaining
          eofRetries).emptyReads ≤ maxEofRetries + 1 - eofRetries := by
  intro d
  induction d with
  | zero =>
    intro eofRetries h1 h2
    rw [streamLoop, dif_neg hrem, dif_pos (by rw [hempty]; rfl)]
    split
    · refine ⟨rfl, ?_⟩
      show (1:Nat) ≤ maxEofRetries + 1 - eofRetries
      omega
    · rw [dif_pos (by omega : maxEofRetries ≤ eofRetries)]
      refine ⟨rfl, ?_⟩
      show (1:Nat) ≤ maxEofRetries + 1 - eofRetries
      omega
  | succ d ihd =>
    intro eofRetries h1 h2
    rw [streamLoop, dif_neg hrem, dif_pos (by rw [hempty]; rfl)]
    split
    · refine ⟨rfl, ?_⟩
      show (1:Nat) ≤ maxEofRetries + 1 - eofRetries
      omega
    · rw [dif_neg (by omega : ¬maxEofRetries ≤ eofRetries)]
      have ih' := ihd (eofRetries + 1) (by omega) (by omega)
      refine ⟨ih'.1, ?_⟩
      show (streamLoop readAt chunkSize maxEofRetries isEndSeek cursor remaining
        (eofRetries + 1)).emptyReads + 1 ≤ maxEofRetries + 1 - eofRetries
      omega

/-- Exact count of empty reads in the stuck state when the end-seek break is
not in play: the loop retries until `eof_retries` reaches the budget, for
`maxEofRetries + 1 - eofRetries` empty reads in all. -/
theorem streamLoop_stuck_count (readAt : Nat → Nat → List Nat)
    (chunkSize maxEofRetries : Nat) (cursor remaining : Nat)
    (hrem : remaining ≠ 0)
    (hempty : readAt cursor (min chunkSize remaining) = []) :
    ∀ d eofRetries, maxEofRetries - eofRetries = d → eofRetries ≤ maxEofRetries →
      streamLoop readAt chunkSize maxEofRetries false cursor remaining eofRetries
        = ⟨[], maxEofRetries + 1 - eofRetries⟩ := by
  intro d
  induction d with
  | zero =>
    intro eofRetries h1 h2
    rw [streamLoop, dif_neg hrem, dif_pos (by rw [hempty]; rfl)]
    rw [if_neg (by simp), dif_pos (by omega : maxEofRetries ≤ eofRetries)]
    have : maxEofRetries + 1 - eofRetries = 1 := by omega
    rw [this]
  | succ d ihd =>
    intro eofRetries h1 h2
    rw [streamLoop, dif_neg hrem, dif_pos (by rw [hempty]; rfl)]
    rw [if_neg (by simp), dif_neg (by omega : ¬maxEofRetries ≤ eofRetries)]
    rw [ihd (eofRetries + 1) (by omega) (by omega)]
    have : maxEofRetries + 1 - eofRetries = (maxEofRetries + 1 - (eofRetries + 1)) + 1 := by
      omega
    rw [this]

/-- Loop behaviour over a source truncated at `p`: the chunks concatenate to
the bytes between the cursor and `p` (capped at `remaining`), and at most
`maxEofRetries + 1` reads come back empty. -/
theorem streamLoop_truncated (data : List Nat) (p chunkSize maxEofRetries : Nat)
    (isEndSeek : Bool) (hp : p ≤ data.length) (hcs : 1 ≤ chunkSize) :
    ∀ remaining cursor, cursor ≤ p →
      (streamLoop (truncatedSource data p) chunkSize maxEofRetries isEndSeek
          cursor remaining 0).chunks.flatten
        = (data.drop cursor).take (min remaining (p - cursor)) ∧
      (streamLoop (truncatedSource data p) chunkSize maxEofRetries isEndSeek
          cursor remaining 0).emptyReads ≤ maxEofRetries + 1 := by
  intro remaining
  induction remaining using Nat.strong_induction_on with
  | _ remaining ih =>
    intro cursor hcp
    by_cases h0 : remaining = 0
    · subst h0
      rw [streamLoop]
      simp
    · by_cases hstuck : cursor = p
      · have hempty : truncatedSource data p cursor (min chunkSize remaining) = [] := by
          unfold truncatedSource
          rw [hstuck]
          simp
        have hs := streamLoop_stuck (truncatedSource data p) chunkSize maxEofRetries
          isEndSeek cursor remaining h0 hempty maxEofRetries 0 (by omega) (by omega)
        refine ⟨?_, by omega⟩
        rw [hs.1]
        have : p - cursor = 0 := by omega
        rw [this]
        simp
      · have hcur : cursor < p := by omega
        set k := min (min chunkSize remaining) (p - cursor) with hkdef
        have hk1 : 1 ≤ k := by omega
        have hchunk : truncatedSource data p cursor (min chunkSize remaining)
            = (data.drop cursor).take k := by
          unfold truncatedSource
          rfl
        have hklen : (truncatedSource data p cursor (min chunkSize remaining)).length = k := by
          rw [hchunk, List.length_take, List.length_drop]
          omega
        have ih' := ih (remaining - k) (by omega) (cursor + k) (by omega)
        rw [streamLoop, dif_neg h0, dif_neg (by omega : ¬(truncatedSource data p cursor
          (min chunkSize remaining)).length = 0)]
        simp only [hklen]
        refine ⟨?_, ih'.2⟩
        simp only [List.flatten_cons, hchunk, ih'.1]
        conv_rhs => rw [show min remaining (p - cursor)
          = k + min (remaining - k) (p - (cursor + k)) from by omega, List.take_add]
        congr 1
        rw [List.drop_drop]

/-- C2 — Over a byte source whose bytes are available only up to offset `p`
with `start ≤ p ≤ e` (so every read at or past `p` is empty, forever), the
streamer terminates having emitted exactly the `p - start` available bytes:
a byte-for-byte strict prefix of the requested range, of length strictly
less than `e - start + 1`, never more than requested, and it performs at
most one more empty read than its configured retry budget before giving
up. -/
theorem C2_stream_early_termination (data : List Nat)
    (p start e chunkSize fileSize : Nat) (isRar2fs : Bool)
    (hsp : start ≤ p) (hpe : p ≤ e) (hel : e < data.length) (hcs : 1 ≤ chunkSize) :
    (stream_file_range (truncatedSource data p) start e chunkSize fileSize
        isRar2fs).chunks.flatten
      = ((data.drop start).take (e - start + 1)).take (p - start) ∧
    (stream_file_range (truncatedSource data p) start e chunkSize fileSize
        isRar2fs).chunks.flatten.length = p - start ∧
    p - start < e - start + 1 ∧
    (stream_file_range (truncatedSource data p) start e chunkSize fileSize
        isRar2fs).emptyReads
      ≤ maxEofRetriesOf (isEndSeekOf isRar2fs start fileSize) isRar2fs + 1 := by
  have h := streamLoop_truncated data p chunkSize
    (maxEofRetriesOf (isEndSeekOf isRar2fs start fileSize) isRar2fs)
    (isEndSeekOf isRar2fs start fileSize) (by omega) hcs
    (e - start + 1) start hsp
  simp only [stream_file_range]
  have hmin : min (e - start + 1) (p - start) = p - start := by omega
  rw [hmin] at h
  refine ⟨?_, ?_, by omega, h.2⟩
  · rw [h.1, List.take_take]
    congr 1
    omega
  · rw [h.1, List.length_take, List.length_drop]
    omega

/-- Witness for C2: a five-byte file with only the first two bytes
materialised, requested range `[0,4]` — the stream is the two available
bytes and stops within the retry budget. -/
theorem C2_stream_early_termination_witness :
    (0:Nat) ≤ 2 ∧ 2 ≤ 4 ∧ 4 < 5 ∧
    ((stream_file_range (truncatedSource [1, 2, 3, 4, 5] 2) 0 4 2 5 false).chunks.flatten
        = (([1, 2, 3, 4, 5].drop 0).take (4 - 0 + 1)).take (2 - 0) ∧
      (stream_file_range (truncatedSource [1, 2, 3, 4, 5] 2) 0 4 2 5 false).chunks.flatten.length
        = 2 - 0 ∧
      2 - 0 < 4 - 0 + 1 ∧
      (stream_file_range (truncatedSource [1, 2, 3, 4, 5] 2) 0 4 2 5 false).emptyReads
        ≤ maxEofRetriesOf (isEndSeekOf false 0 5) false + 1) :=
  ⟨by omega, by omega, by omega,
    C2_stream_early_termination [1, 2, 3, 4, 5] 2 0 4 2 5 false
      (by omega) (by omega) (by simp) (by omega)⟩

/-! ## C4: the end-seek heuristic

The code computes `is_end_seek` from the request START offset (and only for
rar2fs-backed files): `is_rar2fs and (start / file_size > 0.9)`, line 139.
A stream whose START is at or below 90% but whose cursor has advanced past
90% when the empty read happens uses the normal 30-retry budget, not the
small end-seek budget. -/

/-- Counterexample to C4 as stated: a 20-byte rar2fs file with bytes
materialised up to offset 19, requested range `[0,19]`, chunk size 19.  The
single read delivers bytes `0..18`; every following read sits at cursor 19,
i.e. at `19/20 = 95% > 90%` of the file, yet the streamer performs the full
normal budget of 30 retries (31 empty reads), not at most 3. -/
theorem C4_counterexample :
    (stream_file_range (truncatedSource (List.range 20) 19) 0 19 19 20 true).emptyReads = 31 ∧
    9 * 20 < 10 * 19 ∧
    ¬((stream_file_range (truncatedSource (List.range 20) 19) 0 19 19 20 true).emptyReads
        ≤ 3 + 1) := by
  have hstuck := streamLoop_stuck_count (truncatedSource (List.range 20) 19) 19 30 19 1
    (by omega) (by decide) 30 0 rfl (by omega)
  have hmain : (stream_file_range (truncatedSource (List.range 20) 19) 0 19 19 20
      true).emptyReads = 31 := by
    simp only [stream_file_range]
    rw [show isEndSeekOf true 0 20 = false from by decide]
    rw [show maxEofRetriesOf false true = 30 from rfl]
    rw [streamLoop, dif_neg (by omega : ¬(19:Nat) - 0 + 1 = 0),
      dif_neg (by decide : ¬(truncatedSource (List.range 20) 19 0
        (min 19 (19 - 0 + 1))).length = 0)]
    rw [show (truncatedSource (List.range 20) 19 0 (min 19 (19 - 0 + 1))).length = 19
      from by decide]
    show (streamLoop (truncatedSource (List.range 20) 19) 19 30 false (0 + 19)
      (19 - 0 + 1 - 19) 0).emptyReads = 31
    rw [show (0:Nat) + 19 = 19 from rfl, show (19:Nat) - 0 + 1 - 19 = 1 from rfl, hstuck]
  exact ⟨hmain, by omega, by rw [hmain]; omega⟩

/-- C4 amended — The end-seek fast-give-up applies to requests whose START
offset is past 90% of a rar2fs file (not to the advancing cursor): for every
rar2fs request with positive total size and `start / file_size > 0.9`
(modelled rationally as `9 * fileSize < 10 * start`), the retry budget is
the small fixed `max_eof_retries = 3`, and on the first empty read the
streamer gives up at once (one empty read, zero retries — within that
budget) instead of using the larger normal budget. -/
theorem C4_end_seek_amended (readAt : Nat → Nat → List Nat)
    (start e chunkSize fileSize : Nat)
    (hfs : 0 < fileSize) (hseek : 9 * fileSize < 10 * start) (_hs : start ≤ e)
    (hempty : readAt start (min chunkSize (e - start + 1)) = []) :
    stream_file_range readAt start e chunkSize fileSize true = ⟨[], 1⟩ ∧
    maxEofRetriesOf (isEndSeekOf true start fileSize) true = 3 := by
  have hs1 : isEndSeekOf true start fileSize = true := by
    unfold isEndSeekOf
    rw [if_pos hfs]
    simp [hseek]
  refine ⟨?_, by rw [hs1]; rfl⟩
  simp only [stream_file_range, hs1]
  rw [streamLoop, dif_neg (by omega : ¬e - start + 1 = 0),
    dif_pos (by rw [hempty]; rfl), if_pos ⟨rfl, rfl⟩]

/-- Witness for the amended C4: an empty-read source, a 20-byte rar2fs file,
start offset 19 (95% of the file) — the stream gives up at once. -/
theorem C4_end_seek_amended_witness :
    (0:Nat) < 20 ∧ 9 * 20 < 10 * 19 ∧ 19 ≤ 19 ∧
    (stream_file_range (fun _ _ => []) 19 19 5 20 true = ⟨[], 1⟩ ∧
      maxEofRetriesOf (isEndSeekOf true 19 20) true = 3) :=
  ⟨by omega, by omega, by omega,
    C4_end_seek_amended (fun _ _ => []) 19 19 5 20 (by omega) (by omega) (by omega) rfl⟩

/-! ## C3: range validation — 416 exactly when `start ≥ T`, before clamping

`stream_file` (fastapi_file_server.py lines 508-514) and
`RangeRequestHandler.do_GET` (src/usenet_file_server.py lines 75-81) both
run, on the parsed `start`/`end` values:

    if start >= file_size: send 416 and return   # terminal, nothing retried
    if end >= file_size: end = file_size - 1
-/

/-- Outcome of validating a parsed range against the total size: either the
terminal 416 error or the accepted (possibly end-clamped) range. -/
inductive RangeResult where
  | notSatisfiable : RangeResult
  | ok : Nat → Nat → RangeResult
  deriving Repr, DecidableEq

/-- The validation and clamping step shared by `stream_file`
(fastapi_file_server.py lines 508-514) and `do_GET`
(src/usenet_file_server.py lines 75-81): the `start >= file_size` check runs
first and returns the terminal 416; only otherwise is `end` clamped to
`file_size - 1`. `e` is the parsed inclusive end (`end` in the source). -/
def validate_range (start e fileSize : Nat) : RangeResult :=
  if fileSize ≤ start then RangeResult.notSatisfiable
  else RangeResult.ok start (if fileSize ≤ e then fileSize - 1 else e)

/-- C3 — Range resolution signals 416 (RangeNotSatisfiable) if and only if
`start ≥ T`; the check precedes end-clamping, so `start ≥ T` yields the
terminal 416 for every parsed `end`, including `end ≥ T`; otherwise the
result is the accepted range with `end` clamped to `T - 1`. -/
theorem C3_range_not_satisfiable (start e T : Nat) :
    (validate_range start e T = RangeResult.notSatisfiable ↔ T ≤ start) ∧
    (validate_range start e T = RangeResult.notSatisfiable
      ∨ validate_range start e T = RangeResult.ok start (min e (T - 1))) := by
  unfold validate_range
  by_cases h : T ≤ start
  · rw [if_pos h]
    exact ⟨by simp [h], Or.inl rfl⟩
  · rw [if_neg h]
    constructor
    · constructor
      · intro hcontra
        exact absurd hcontra (by simp)
      · intro hT
        exact absurd hT h
    · refine Or.inr ?_
      by_cases he : T ≤ e
      · rw [if_pos he]
        congr 1
        omega
      · rw [if_neg he]
        congr 1
        omega

/-! ## C5, C6: the 7z stability tracker

`extract_7z_archives.monitor_loop` (usenet_file_server.py lines 1116-1134)
keeps, per archive path, the pair `(last_size, last_time)` in
`archive_stable_times` and on each tick decides:

    if path not in archive_stable_times: record (size, now); not ready
    elif size != last_size:              record (size, now); not ready
    elif now - last_time < 30:           keep entry;         not ready
    else:                                keep entry;         ready (Stable)
-/

/-- One monitor-tick stability decision for a single path: from the current
tracked entry (`none` when the path was never seen) and the observed
`(size, now)`, produce the updated entry and whether the archive counts as
stable (ready for extraction).  `T_stable` is the literal 30 of the source. -/
def stabStep (entry : Option (Nat × Nat)) (size now : Nat) : (Nat × Nat) × Bool :=
  match entry with
  | none => ((size, now), false)
  | some (lastSize, lastTime) =>
    if size ≠ lastSize then ((size, now), false)
    else if now - lastTime < 30 then ((lastSize, lastTime), false)
    else ((lastSize, lastTime), true)

/-- Run the tracker over a sequence of `(size, time)` observations of one
path, starting untracked; returns the final entry and the stability verdict
of the last observation. -/
def runObs (obs : List (Nat × Nat)) : Option (Nat × Nat) × Bool :=
  obs.foldl (fun acc o => (some (stabStep acc.1 o.1 o.2).1, (stabStep acc.1 o.1 o.2).2))
    (none, false)

/-- C5 — A tracked path becomes Stable exactly when the observed size equals
the recorded size and at least 30 seconds have elapsed since the recorded
timestamp; and for sizes `[100, 100, 100]` observed at `t = 0, 10, 20` the
verdict at `t = 20` is still not-stable (Growing), while a further unchanged
observation at `t = 30` is Stable. -/
theorem C5_stability_threshold (lastSize lastTime size now : Nat)
    (hmono : lastTime ≤ now) :
    ((stabStep (some (lastSize, lastTime)) size now).2 = true
      ↔ (size = lastSize ∧ lastTime + 30 ≤ now)) ∧
    (runObs [(100, 0), (100, 10), (100, 20)]).2 = false ∧
    (runObs [(100, 0), (100, 10), (100, 20), (100, 30)]).2 = true := by
  refine ⟨?_, by decide, by decide⟩
  show ((if size ≠ lastSize then ((size, now), false)
    else if now - lastTime < 30 then ((lastSize, lastTime), false)
    else ((lastSize, lastTime), true)).2 = true) ↔ size = lastSize ∧ lastTime + 30 ≤ now
  by_cases hsz : size ≠ lastSize
  · rw [if_pos hsz]
    simp only [Bool.false_eq_true, false_iff]
    intro hcontra
    exact hsz hcontra.1
  · rw [if_neg hsz]
    push_neg at hsz
    by_cases ht : now - lastTime < 30
    · rw [if_pos ht]
      simp only [Bool.false_eq_true, false_iff]
      intro hcontra
      omega
    · rw [if_neg ht]
      simp only [true_iff]
      exact ⟨hsz, by omega⟩

/-- Witness for C5: entry `(100, 0)` observed unchanged at `t = 30` is
Stable. -/
theorem C5_stability_threshold_witness :
    (0:Nat) ≤ 30 ∧
    (((stabStep (some (100, 0)) 100 30).2 = true ↔ (100 = 100 ∧ 0 + 30 ≤ 30)) ∧
      (runObs [(100, 0), (100, 10), (100, 20)]).2 = false ∧
      (runObs [(100, 0), (100, 10), (100, 20), (100, 30)]).2 = true) :=
  ⟨by omega, C5_stability_threshold 100 0 100 30 (by omega)⟩

/-- Counterexample to C6 as stated: for sizes `[100, 150, 150]` at
`t = 0, 10, 40` the tracker's clock resets at `t = 10`, so at the `t = 40`
observation 30 seconds have elapsed since the reset and the code reports
Stable — the claim asserts it is not Stable at `t = 40`. -/
theorem C6_counterexample :
    (runObs [(100, 0), (150, 10), (150, 40)]).2 = true := by decide

/-- C6 amended — For sizes `[100, 150, 150]` at `t = 0, 10, 40` the clock
resets at `t = 10` (growth detected, entry becomes `(150, 10)`); the path is
not Stable before 30 seconds have elapsed since that reset (e.g. not at an
observation at `t = 39`), and is Stable at the `t = 40` observation — not
`t = 70`. -/
theorem C6_reset_amended :
    (runObs [(100, 0), (150, 10)]).1 = some (150, 10) ∧
    (runObs [(100, 0), (150, 10), (150, 39)]).2 = false ∧
    (runObs [(100, 0), (150, 10), (150, 40)]).2 = true := by decide

/-! ## C7: the split-archive part probe

For a split 7z archive, `monitor_loop` (usenet_file_server.py lines
1072-1114) only processes the `.7z.001` first part; it then derives
`base_name = file[:-8]` — the comment says "Remove .7z.001", but `.7z.001`
is SEVEN characters, so one extra character of the real base name is cut —
and probes `f"{base_name}.7z.{part_num:03d}"` for `part_num = 1, 2, ...`
until a part is missing, requiring each found part to be stable.  Because
the probed names are wrong, the very first probe misses, no part is ever
checked, and `all_parts_stable` keeps its initial `True`. -/

/-- Python `f"{n:03d}"`: `n` in decimal, left-padded with zeros to width 3. -/
def pad3 (n : Nat) : List Char :=
  if n < 10 then '0' :: '0' :: Nat.toDigits 10 n
  else if n < 100 then '0' :: Nat.toDigits 10 n
  else Nat.toDigits 10 n

/-- The literal suffix `.7z.001` of a first split part. -/
def sevenZipFirstSuffix : List Char := ['.', '7', 'z', '.', '0', '0', '1']

/-- `f"{base_name}.7z.{part_num:03d}"` (line 1084). -/
def partFileName (baseName : List Char) (partNum : Nat) : List Char :=
  baseName ++ ['.', '7', 'z', '.'] ++ pad3 partNum

/-- `base_name = file[:-8]` (line 1079): the filename minus its last EIGHT
characters. -/
def base_name_of (file : List Char) : List Char :=
  file.take (file.length - 8)

/-- The `while True` probe over part numbers (lines 1083-1108).  The
directory is `dirSize : name ↦ Option size` (`none` = the file does not
exist); `stab` is the `archive_stable_times` map restricted to this
directory; `fuel` bounds the number of probes (the Python loop is unbounded
but stops at the first missing part).  Returns `all_parts_stable` and the
updated stability map. -/
def probeParts (dirSize : List Char → Option Nat)
    (stab : List Char → Option (Nat × Nat)) (now : Nat) (baseName : List Char)
    (partNum : Nat) (allStable : Bool) :
    Nat → Bool × (List Char → Option (Nat × Nat))
  | 0 => (allStable, stab)
  | fuel + 1 =>
    match dirSize (partFileName baseName partNum) with
    | none => (allStable, stab)
    | some size =>
      match stab (partFileName baseName partNum) with
      | none =>
        probeParts dirSize
          (fun k => if k = partFileName baseName partNum then some (size, now) else stab k)
          now baseName (partNum + 1) false fuel
      | some (lastSize, lastTime) =>
        if size ≠ lastSize then
          probeParts dirSize
            (fun k => if k = partFileName baseName partNum then some (size, now) else stab k)
            now baseName (partNum + 1) false fuel
        else if now - lastTime < 30 then
          probeParts dirSize stab now baseName (partNum + 1) false fuel
        else
          probeParts dirSize stab now baseName (partNum + 1) allStable fuel

/-- The split-archive gate of `monitor_loop` (lines 1072-1112): only a file
ending in `.7z.001` triggers the probe; the result is the
`all_parts_stable` verdict that decides whether extraction is invoked
(`none` = this file does not trigger processing). -/
def checkSplitArchive (dirSize : List Char → Option Nat)
    (stab : List Char → Option (Nat × Nat)) (now : Nat) (file : List Char)
    (fuel : Nat) : Option Bool :=
  if sevenZipFirstSuffix.isSuffixOf file then
    some (probeParts dirSize stab now (base_name_of file) 1 true fuel).1
  else none

/-- C7 is right and the code is wrong (`file[:-8]` drops 8 characters where
the comment says "Remove .7z.001", 7 characters): in a directory holding
`movie.7z.001` and a still-arriving `movie.7z.002`, on the very first tick
(empty stability map, so no part can possibly satisfy the Stable condition)
the probe looks for `movi.7z.001`, finds nothing, and reports
`all_parts_stable = true`, green-lighting extraction.  Had the base name
been the correct `movie`, the same probe would report `false`. -/
theorem C7_split_probe_bug :
    checkSplitArchive
      (fun f => if f = ['m','o','v','i','e','.','7','z','.','0','0','1'] then some 1000
        else if f = ['m','o','v','i','e','.','7','z','.','0','0','2'] then some 500
        else none)
      (fun _ => none) 0 ['m','o','v','i','e','.','7','z','.','0','0','1'] 10
      = some true ∧
    base_name_of ['m','o','v','i','e','.','7','z','.','0','0','1'] = ['m','o','v','i'] ∧
    (probeParts
      (fun f => if f = ['m','o','v','i','e','.','7','z','.','0','0','1'] then some 1000
        else if f = ['m','o','v','i','e','.','7','z','.','0','0','2'] then some 500
        else none)
      (fun _ => none) 0 ['m','o','v','i','e'] 1 true 10).1 = false := by
  refine ⟨?_, by decide, ?_⟩ <;> decide

/-! ## C8: extraction outcome bookkeeping

`monitor_loop` (usenet_file_server.py lines 1142-1171) runs `7z x` and then:
return code 0 → `extracted_archives.add(archive_path)` and the
`archive_stable_times` entry is deleted; return code 2 (incomplete/corrupt),
any other non-zero code, or a `TimeoutExpired` → nothing is recorded, so the
next 10-second cycle retries.  Lines 1067-1069 skip any archive already in
`extracted_archives`.  The monitor is one sequential loop, so one extraction
call at a time is in flight. -/

/-- Outcome of one `subprocess.run(['7z', 'x', ...])` call: `some rc` is a
completed call with return code `rc`; `none` is `TimeoutExpired`. -/
def applyExtraction (extracted : List (List Char))
    (stab : List Char → Option (Nat × Nat)) (path : List Char)
    (outcome : Option Nat) :
    List (List Char) × (List Char → Option (Nat × Nat)) :=
  match outcome with
  | some 0 => (path :: extracted, fun p => if p = path then none else stab p)
  | _ => (extracted, stab)

/-- The skip guard of lines 1067-1069: an archive already in
`extracted_archives` is not processed again. -/
def shouldSkip (extracted : List (List Char)) (path : List Char) : Bool :=
  extracted.contains path

/-- C8 — A success exit (code 0) records the archive in the extracted set
(so the lines-1067-1069 guard skips it on every later cycle) and deletes its
stability entry; an incomplete/corrupt exit (code 2), any other non-zero
code, or a timeout leaves both untouched, so the guard still admits the
archive next cycle; and membership in the extracted set is never lost by any
outcome, so once extracted an archive is never fed to extraction again.
(The at-most-one-in-flight part holds because the embedded monitor is a
single sequential loop.) -/
theorem C8_extraction_outcomes (extracted : List (List Char))
    (stab : List Char → Option (Nat × Nat)) (path q : List Char)
    (c : Nat) (outcome : Option Nat) :
    (applyExtraction extracted stab path (some 0)).1 = path :: extracted ∧
    (applyExtraction extracted stab path (some 0)).2 path = none ∧
    shouldSkip (applyExtraction extracted stab path (some 0)).1 path = true ∧
    applyExtraction extracted stab path (some (c + 1)) = (extracted, stab) ∧
    applyExtraction extracted stab path none = (extracted, stab) ∧
    shouldSkip extracted path ≤ shouldSkip (applyExtraction extracted stab q outcome).1 path := by
  refine ⟨rfl, by simp [applyExtraction], ?_, rfl, rfl, ?_⟩
  · simp [shouldSkip, applyExtraction, List.contains_cons]
  · match outcome with
    | none => exact le_refl _
    | some 0 =>
      simp only [applyExtraction, shouldSkip, List.contains_cons]
      cases h : extracted.contains path
      · simp
      · simp
    | some (k + 1) => exact le_refl _

/-! ## C9: archive-member reference splitting

`handle_archive_extraction` (usenet_file_server.py lines 383-391) takes the
request path after the `/archive://` prefix and runs:

    if '|' not in path_without_prefix: send 400 and return
    archive_rel_path, internal_file = path_without_prefix.split('|', 1)

The only rejected shape is a missing delimiter; empty archive path or empty
member name pass the split and continue into archive lookup. -/

/-- The reference split: `none` models the 400 "Invalid archive path format"
rejection; `some (a, m)` models `path.split('|', 1)` succeeding with archive
path `a` and member reference `m`. -/
def splitArchiveRef (s : List Char) : Option (List Char × List Char) :=
  if '|' ∈ s then
    some (s.takeWhile (fun ch => ch ≠ '|'), (s.dropWhile (fun ch => ch ≠ '|')).drop 1)
  else none

/-- Counterexample to C9 as stated: the reference `|a` (empty archive path)
is not rejected — the code splits it into `("", "a")` and proceeds to the
archive lookup; likewise `a.7z|` (empty member name) splits into
`("a.7z", "")`. -/
theorem C9_counterexample :
    splitArchiveRef ['|', 'a'] = some ([], ['a']) ∧
    splitArchiveRef ['a', '.', '7', 'z', '|'] = some (['a', '.', '7', 'z'], []) := by
  decide

/-- C9 amended — Resolution rejects a reference with a client error exactly
when it contains no `|` delimiter at all; a reference that does contain the
delimiter is split at its first occurrence and always proceeds (even with an
empty archive path or empty member name, which only fail later, at
lookup). -/
theorem C9_split_rejects_only_missing_delimiter (s : List Char) :
    (splitArchiveRef s = none ↔ '|' ∉ s) ∧
    ('|' ∈ s → splitArchiveRef s
      = some (s.takeWhile (fun ch => ch ≠ '|'), (s.dropWhile (fun ch => ch ≠ '|')).drop 1)) := by
  unfold splitArchiveRef
  by_cases h : '|' ∈ s
  · rw [if_pos h]
    exact ⟨by simp [h], fun _ => rfl⟩
  · rw [if_neg h]
    exact ⟨by simp [h], fun hc => absurd hc h⟩

/-- Witness for the amended C9: `a|b` contains the delimiter and splits into
`("a", "b")`; `ab` has no delimiter and is rejected. -/
theorem C9_split_rejects_only_missing_delimiter_witness :
    splitArchiveRef ['a', '|', 'b'] = some (['a'], ['b']) ∧
    splitArchiveRef ['a', 'b'] = none :=
  ⟨((C9_split_rejects_only_missing_delimiter ['a', '|', 'b']).2 (by decide)).trans
      (by decide),
    ((C9_split_rejects_only_missing_delimiter ['a', 'b']).1).mpr (by decide)⟩

/-! ## C10: filename fallback search

`stream_file` (fastapi_file_server.py lines 470-480): when the joined path
does not exist, the basename of the request is searched over the whole
served tree with `find_file_by_name` (lines 114-122), which walks
`os.walk(root_dir)` and returns `os.path.join(root, filename)` for the
first directory whose file list contains the name; only if the walk finds
nothing is 404 returned.  `RangeRequestHandler.do_GET`
(src/usenet_file_server.py lines 37-52) does the same.

The filesystem is modelled by an existence predicate on full paths plus the
`os.walk` enumeration: the list of `(directory, files in it)` pairs in walk
order. -/

/-- `find_file_by_name` (fastapi_file_server.py lines 114-122): first
directory of the walk whose files contain `filename` wins; the returned
path is `os.path.join(root, filename)`. -/
def find_file_by_name (walk : List (List Char × List (List Char)))
    (filename : List Char) : Option (List Char) :=
  match walk with
  | [] => none
  | (root, files) :: rest =>
    if filename ∈ files then some (root ++ '/' :: filename)
    else find_file_by_name rest filename

/-- Outcome of resolving a GET path: 404, or the file actually streamed. -/
inductive ResolveResult where
  | notFound : ResolveResult
  | serve : List Char → ResolveResult
  deriving Repr, DecidableEq

/-- The path-resolution step of `stream_file` (lines 470-480): serve the
exact path when it exists, otherwise fall back to the basename search over
the walk; 404 only when that also misses. -/
def resolve_path (pathExists : List Char → Bool)
    (walk : List (List Char × List (List Char)))
    (fullPath basename : List Char) : ResolveResult :=
  if pathExists fullPath then ResolveResult.serve fullPath
  else
    match find_file_by_name walk basename with
    | some found => ResolveResult.serve found
    | none => ResolveResult.notFound

/-- The fallback search returns `none` exactly when no directory of the walk
contains the filename. -/
theorem find_file_by_name_none_iff (walk : List (List Char × List (List Char)))
    (filename : List Char) :
    find_file_by_name walk filename = none ↔ ∀ d ∈ walk, filename ∉ d.2 := by
  induction walk with
  | nil => simp [find_file_by_name]
  | cons hd rest ih =>
    unfold find_file_by_name
    by_cases h : filename ∈ hd.2
    · rw [if_pos h]
      simp [h]
    · rw [if_neg h]
      simp only [List.mem_cons, ih]
      constructor
      · intro hall d hd2
        rcases hd2 with rfl | hd2
        · exact h
        · exact hall d hd2
      · intro hall d hd2
        exact hall d (Or.inr hd2)

/-- The fallback search returns the first hit in walk order. -/
theorem find_file_by_name_first_hit (filename : List Char)
    (pre : List (List Char × List (List Char))) (d : List Char)
    (fs : List (List Char)) (post : List (List Char × List (List Char)))
    (hmem : filename ∈ fs) (hmiss : ∀ d2 ∈ pre, filename ∉ d2.2) :
    find_file_by_name (pre ++ (d, fs) :: post) filename
      = some (d ++ '/' :: filename) := by
  induction pre with
  | nil =>
    rw [List.nil_append]
    simp only [find_file_by_name]
    rw [if_pos hmem]
  | cons hd rest ih =>
    rw [List.cons_append]
    simp only [find_file_by_name]
    rw [if_neg (hmiss hd (List.mem_cons_self hd rest))]
    exact ih (fun d2 hd2 => hmiss d2 (List.mem_cons_of_mem hd hd2))

/-- C10 — When the resolved path does not exist, the server serves the first
file (in walk order over the whole served tree) whose directory's file list
contains the requested basename, no matter which directory the request
named; it answers 404 exactly when no directory anywhere in the tree
contains the basename. -/
theorem C10_fallback_search (pathExists : List Char → Bool)
    (walk : List (List Char × List (List Char))) (fullPath basename : List Char)
    (hne : pathExists fullPath = false) :
    (resolve_path pathExists walk fullPath basename = ResolveResult.notFound
      ↔ ∀ d ∈ walk, basename ∉ d.2) ∧
    (∀ pre d fs post, walk = pre ++ (d, fs) :: post → basename ∈ fs →
      (∀ d2 ∈ pre, basename ∉ d2.2) →
      resolve_path pathExists walk fullPath basename
        = ResolveResult.serve (d ++ '/' :: basename)) := by
  unfold resolve_path
  rw [hne]
  simp only [Bool.false_eq_true, if_false]
  constructor
  · rw [← find_file_by_name_none_iff walk basename]
    cases h : find_file_by_name walk basename
    · simp
    · simp
  · intro pre d fs post hwalk hmem hmiss
    subst hwalk
    rw [find_file_by_name_first_hit basename pre d fs post hmem hmiss]

/-- Witness for C10: the request names `q/x` which does not exist; the walk
is `[(a, []), (b, [x]), (c, [x])]`, so the served file is `b/x`. -/
theorem C10_fallback_search_witness :
    ((fun _ => false : List Char → Bool) ['q', '/', 'x'] = false) ∧
    resolve_path (fun _ => false)
      [(['a'], []), (['b'], [['x']]), (['c'], [['x']])] ['q', '/', 'x'] ['x']
      = ResolveResult.serve (['b'] ++ '/' :: ['x']) :=
  ⟨rfl,
    (C10_fallback_search (fun _ => false)
        [(['a'], []), (['b'], [['x']]), (['c'], [['x']])] ['q', '/', 'x'] ['x'] rfl).2
      [(['a'], [])] ['b'] [['x']] [(['c'], [['x']])] rfl (by decide) (by decide)⟩
